import Mathlib

/-!
Verification of the Technical Signal & Backtesting Engine
(`src/sites/echo/src`: `scrapers/stock_data.py`, `analysis/technical.py`,
`backtesting/backtester.py`).

Modelling conventions:
* Python floats are modelled as `ℚ`; a float `NaN` is modelled as `none`
  in `Option ℚ`.  Where the source divides floats, the only cases that
  actually arise are a nonzero denominator (ordinary division), `x / 0`
  with `x > 0` (which is `+inf` and only ever feeds `100 - 100/(1+rs)`,
  collapsing to the value `100`), and `0 / 0` (which is `NaN`, modelled
  as `none`); each division site spells these cases out explicitly.
* A pandas `Series` is a `List`; `rolling(window=n)` aggregations give
  `none` for the first `n - 1` positions (`min_periods` defaults to the
  window size).
* Square roots (Bollinger standard deviation, the Sharpe ratio) are
  irrational, so the affected definitions take an explicit `sqrtQ`
  parameter standing for the float square root; no claim inspects a
  value that depends on it.
-/

/-- One OHLC observation, as consumed by the indicator library
(`TechnicalIndicators` in `stock_data.py`). -/
structure Bar where
  high : ℚ
  low : ℚ
  close : ℚ
  deriving DecidableEq

/-- pandas `series.rolling(window=n).mean()` on a NaN-free series:
`none` before position `n - 1`, afterwards the mean of the trailing
`n`-window. -/
def rollingMean (n : ℕ) (xs : List ℚ) : List (Option ℚ) :=
  (List.range xs.length).map fun i =>
    if i + 1 < n then none
    else some (((xs.take (i + 1)).drop (i + 1 - n)).sum / (n : ℚ))

/-- Source `TechnicalIndicators.calculate_sma`: `data.rolling(window=period).mean()`. -/
def calculate_sma (xs : List ℚ) (period : ℕ) : List (Option ℚ) :=
  rollingMean period xs

/-- The series `delta.where(delta > 0, 0)` from `calculate_rsi`, where
`delta = data.diff()`.  `diff` is `NaN` at position 0 and `NaN > 0` is
false, so `where` substitutes `0` there. -/
def gains (xs : List ℚ) : List ℚ :=
  (List.range xs.length).map fun i =>
    if i = 0 then 0
    else
      let d := xs.getD i 0 - xs.getD (i - 1) 0
      if 0 < d then d else 0

/-- The series `(-delta.where(delta < 0, 0))` from `calculate_rsi`. -/
def losses (xs : List ℚ) : List ℚ :=
  (List.range xs.length).map fun i =>
    if i = 0 then 0
    else
      let d := xs.getD i 0 - xs.getD (i - 1) 0
      if d < 0 then -d else 0

/-- Source `TechnicalIndicators.calculate_rsi`: `rs = gain / loss` and
`rsi = 100 - 100 / (1 + rs)`, float semantics made explicit: with average
loss `0` and average gain positive, `rs = +inf` and the result is exactly
`100`; with both averages `0`, `rs = 0/0 = NaN` and the result is `NaN`. -/
def calculate_rsi (xs : List ℚ) (period : ℕ) : List (Option ℚ) :=
  let g := rollingMean period (gains xs)
  let l := rollingMean period (losses xs)
  (List.range xs.length).map fun i =>
    match g.getD i none, l.getD i none with
    | some gv, some lv =>
        if lv = 0 then (if gv = 0 then none else some 100)
        else some (100 - 100 / (1 + gv / lv))
    | _, _ => none

/-- pandas `series.rolling(window=n).std()` (sample standard deviation,
`ddof = 1`), with the square root abstracted as `sqrtQ`. -/
def rollingStd (sqrtQ : ℚ → ℚ) (n : ℕ) (xs : List ℚ) : List (Option ℚ) :=
  (List.range xs.length).map fun i =>
    if i + 1 < n then none
    else
      let w := (xs.take (i + 1)).drop (i + 1 - n)
      let m := w.sum / (n : ℚ)
      some (sqrtQ ((w.map fun x => (x - m) ^ 2).sum / ((n : ℚ) - 1)))

/-- Result of `TechnicalIndicators.calculate_bollinger_bands`. -/
structure BollingerBands where
  upper : List (Option ℚ)
  middle : List (Option ℚ)
  lower : List (Option ℚ)
  deriving DecidableEq

/-- Source `TechnicalIndicators.calculate_bollinger_bands`: middle is
`SMA(period)`, upper and lower are `sma ± std * std_dev` pointwise, with
`NaN` propagating through the arithmetic. -/
def calculate_bollinger_bands (sqrtQ : ℚ → ℚ) (xs : List ℚ) (period : ℕ)
    (std_dev : ℚ) : BollingerBands :=
  let sma := rollingMean period xs
  let std := rollingStd sqrtQ period xs
  { upper := (List.range xs.length).map fun i =>
      match sma.getD i none, std.getD i none with
      | some m, some s => some (m + s * std_dev)
      | _, _ => none
    middle := sma
    lower := (List.range xs.length).map fun i =>
      match sma.getD i none, std.getD i none with
      | some m, some s => some (m - s * std_dev)
      | _, _ => none }

/-- The `true_range` series of `TechnicalIndicators.calculate_atr`:
`max(high - low, |high - prev_close|, |low - prev_close|)`.  At position
0 the two shifted terms are `NaN`, and the pandas row-wise `max` skips
`NaN`, leaving `high - low`. -/
def trueRange (highs lows closes : List ℚ) : List ℚ :=
  (List.range highs.length).map fun i =>
    if i = 0 then highs.getD 0 0 - lows.getD 0 0
    else
      max (highs.getD i 0 - lows.getD i 0)
        (max |highs.getD i 0 - closes.getD (i - 1) 0|
          |lows.getD i 0 - closes.getD (i - 1) 0|)

/-- Source `TechnicalIndicators.calculate_atr`: rolling mean of the true range. -/
def calculate_atr (highs lows closes : List ℚ) (period : ℕ) : List (Option ℚ) :=
  rollingMean period (trueRange highs lows closes)

/-- The `%K` series of `TechnicalIndicators.calculate_stochastic`:
`100 * (close - lowest_low) / (highest_high - lowest_low)` over the
trailing `k_period` window.  When the window's highest high equals its
lowest low the denominator is `0`; for well-formed bars
(`low ≤ close ≤ high`) the numerator is then also `0`, so the float
result is `0/0 = NaN`, modelled as `none`. -/
def calculate_stochastic_k (highs lows closes : List ℚ) (k_period : ℕ) :
    List (Option ℚ) :=
  (List.range closes.length).map fun i =>
    if i + 1 < k_period then none
    else
      let ll := ((lows.take (i + 1)).drop (i + 1 - k_period)).foldl min (lows.getD i 0)
      let hh := ((highs.take (i + 1)).drop (i + 1 - k_period)).foldl max (highs.getD i 0)
      if hh = ll then none
      else some (100 * (closes.getD i 0 - ll) / (hh - ll))

theorem getD_map_range {α : Type} (f : ℕ → α) (d : α) {L i : ℕ} (h : i < L) :
    ((List.range L).map f).getD i d = f i := by
  rw [List.getD_eq_getD_get?, List.get?_eq_getElem?, List.getElem?_map,
    List.getElem?_range h]
  rfl

theorem length_map_range {α : Type} (f : ℕ → α) (L : ℕ) :
    ((List.range L).map f).length = L := by
  simp

/-!
Signal Analyzer (`analysis/technical.py`).
-/

/-- The `Signal` enum of `technical.py`. -/
inductive Signal
  | strong_buy
  | buy
  | hold
  | sell
  | strong_sell
  deriving DecidableEq

/-- The `TechnicalSignal` dataclass of `technical.py`. -/
structure TechnicalSignal where
  indicator : String
  value : ℚ
  signal : Signal
  strength : ℚ
  description : String
  deriving DecidableEq

/-- The `buy_signals` count of `_calculate_confidence`. -/
def buy_count (signals : List TechnicalSignal) : ℕ :=
  (signals.filter fun s =>
    decide (s.signal = Signal.buy ∨ s.signal = Signal.strong_buy)).length

/-- The `sell_signals` count of `_calculate_confidence`. -/
def sell_count (signals : List TechnicalSignal) : ℕ :=
  (signals.filter fun s =>
    decide (s.signal = Signal.sell ∨ s.signal = Signal.strong_sell)).length

/-- Source `TechnicalAnalyzer._calculate_confidence`: `0.5` with no signals,
otherwise `min(0.95, 0.4 + agreement_ratio * 0.5)` where the agreement
ratio is `max(buy_signals, sell_signals) / total`. -/
def calculate_confidence (signals : List TechnicalSignal) : ℚ :=
  if signals.isEmpty then 1 / 2
  else
    min (95 / 100) (4 / 10 +
      (((max (buy_count signals) (sell_count signals) : ℕ) : ℚ) /
        (signals.length : ℚ)) * (1 / 2))

/-- Slice `df[col].iloc[-50:]`: the trailing 50 entries (all of them when the
series is shorter). -/
def last50 (xs : List ℚ) : List ℚ := xs.drop (xs.length - 50)

/-- Python `sorted(xs)`. -/
def sortAsc (xs : List ℚ) : List ℚ := List.insertionSort (· ≤ ·) xs

/-- Python `sorted(xs, reverse=True)` (as a value list; ties carry no
identity here). -/
def sortDesc (xs : List ℚ) : List ℚ := (List.insertionSort (· ≤ ·) xs).reverse

/-- Pandas `Series.nlargest(k)`: the `k` largest values. -/
def nlargest (k : ℕ) (xs : List ℚ) : List ℚ := (sortDesc xs).take k

/-- Pandas `Series.nsmallest(k)`: the `k` smallest values. -/
def nsmallest (k : ℕ) (xs : List ℚ) : List ℚ := (sortAsc xs).take k

/-- Source `TechnicalAnalyzer._find_support_resistance` (lines 571-595 of
`technical.py`): the `2 * num_levels` most extreme highs/lows of the
trailing 50 bars, filtered to strictly above/below the current price;
resistance is `sorted(...)[:num_levels]`, support is
`sorted(..., reverse=True)[:num_levels]`.  Returns
`(support, resistance)`. -/
def find_support_resistance (highs lows : List ℚ) (current_price : ℚ)
    (num_levels : ℕ) : List ℚ × List ℚ :=
  let recent_highs := nlargest (num_levels * 2) (last50 highs)
  let recent_lows := nsmallest (num_levels * 2) (last50 lows)
  let resistance := (sortAsc (recent_highs.filter fun h =>
    decide (current_price < h))).take num_levels
  let support := (sortDesc (recent_lows.filter fun l =>
    decide (l < current_price))).take num_levels
  (support, resistance)

/-!
Backtest Simulator (`backtesting/backtester.py`).
-/

/-- One row of the historical price frame, as the simulation loop reads
it: the index entry (a date, modelled as a day number) and the close. -/
structure PriceBar where
  date : ℤ
  close : ℚ
  deriving DecidableEq

/-- The `BacktestTrade` dataclass.  `exit_date` and `exit_price` default
to `None`; numeric fields default to `0`, flags to `False`. -/
structure BacktestTrade where
  symbol : String
  entry_date : ℤ
  entry_price : ℚ
  exit_date : Option ℤ := none
  exit_price : Option ℚ := none
  action : String := "buy"
  target_price : ℚ := 0
  stop_loss : ℚ := 0
  return_percent : ℚ := 0
  profit_loss : ℚ := 0
  hit_target : Bool := false
  hit_stop_loss : Bool := false
  confidence : ℚ := 0
  technical_score : ℚ := 0
  deriving DecidableEq

/-- Property `BacktestTrade.is_profitable`: `return_percent > 0`. -/
def BacktestTrade.is_profitable (t : BacktestTrade) : Bool :=
  decide (0 < t.return_percent)

/-- Entry of `_backtest_symbol` (lines 248-264): the trade opened on a
buy signal.  `atr = none` models the case where the `atr_14` column is
absent, in which the source substitutes `price * 0.02` for the ATR value
and still multiplies it by 2 and 1.5. -/
def openTrade (symbol : String) (date : ℤ) (price : ℚ) (confidence : ℚ)
    (atr : Option ℚ) : BacktestTrade :=
  let a := atr.getD (price * (2 / 100))
  { symbol := symbol
    entry_date := date
    entry_price := price
    action := "buy"
    confidence := confidence
    technical_score := confidence
    target_price := price + a * 2
    stop_loss := price - a * (3 / 2) }

/-- Exit-condition block of `_backtest_symbol` (lines 266-305) for one
bar while in position.  The flag updates follow the source's
`if price >= target / elif price <= stop_loss` chain; `should_exit` is
the disjunction accumulated across the target, stop, sell-signal and
30-day-timeout checks (`exit_reason` is a local the source never
stores).  Returns the updated trade and whether it was closed. -/
def exitUpdate (position_size : ℚ) (tr : BacktestTrade) (date : ℤ)
    (price : ℚ) (signal : String) : BacktestTrade × Bool :=
  let tr1 :=
    if tr.target_price ≤ price then { tr with hit_target := true }
    else if price ≤ tr.stop_loss then { tr with hit_stop_loss := true }
    else tr
  if tr.target_price ≤ price ∨ price ≤ tr.stop_loss ∨ signal = "sell" ∨
      30 < date - tr.entry_date then
    ({ tr1 with
        exit_date := some date
        exit_price := some price
        return_percent := (price - tr.entry_price) / tr.entry_price * 100
        profit_loss :=
          position_size * ((price - tr.entry_price) / tr.entry_price * 100) / 100 },
      true)
  else (tr1, false)

/-- The per-symbol loop state: the closed trades collected so far and
the open position, if any (`in_position` is `current.isSome`). -/
structure SymbolState where
  trades : List BacktestTrade
  current : Option BacktestTrade
  deriving DecidableEq

/-- One iteration of the `for i in range(50, len(df))` loop of
`_backtest_symbol`.  `sig i` stands for
`self._get_signal(df.iloc[:i+1], strategy)` and `atr i` for the
`atr_14` value at row `i` (`none` when the column is absent); both are
pure functions of the fixed dataframe, so passing them as functions of
the row index is exact. -/
def symbolStep (symbol : String) (position_size : ℚ)
    (sig : ℕ → String × ℚ) (atr : ℕ → Option ℚ) (i : ℕ) (bar : PriceBar)
    (st : SymbolState) : SymbolState :=
  match st.current with
  | none =>
      if (sig i).1 = "buy" ∧ (3 : ℚ) / 5 < (sig i).2 then
        { st with
            current := some (openTrade symbol bar.date bar.close (sig i).2 (atr i)) }
      else st
  | some tr =>
      let r := exitUpdate position_size tr bar.date bar.close (sig i).1
      if r.2 then { trades := st.trades ++ [r.1], current := none }
      else { st with current := some r.1 }

/-- The loop of `_backtest_symbol`, folded over the indexed bars. -/
def runSymbol (symbol : String) (position_size : ℚ) (sig : ℕ → String × ℚ)
    (atr : ℕ → Option ℚ) : List (ℕ × PriceBar) → SymbolState → SymbolState
  | [], st => st
  | (i, b) :: rest, st =>
      runSymbol symbol position_size sig atr rest
        (symbolStep symbol position_size sig atr i b st)

/-- Source `Backtester._backtest_symbol`: with fewer than 50 bars the symbol is
skipped; otherwise the loop runs over rows 50 onward and the collected
closed trades are returned (an open position left at the end of the data
is dropped with the loop state). -/
def backtest_symbol (symbol : String) (position_size : ℚ)
    (sig : ℕ → String × ℚ) (atr : ℕ → Option ℚ) (bars : List PriceBar) :
    List BacktestTrade :=
  if bars.length < 50 then []
  else
    (runSymbol symbol position_size sig atr
      (List.enumFrom 50 (bars.drop 50)) ⟨[], none⟩).trades

/-- The mean used throughout `_calculate_metrics`
(`statistics.mean`). -/
def listMean (xs : List ℚ) : ℚ := xs.sum / (xs.length : ℚ)

/-- Python `statistics.stdev` (sample variance under the abstracted square
root). -/
def sampleVariance (xs : List ℚ) : ℚ :=
  (xs.map fun x => (x - listMean xs) ^ 2).sum / ((xs.length : ℚ) - 1)

/-- The cumulative-return accumulation of `_calculate_metrics` (lines
486-490): running sums of the per-trade returns, in list order. -/
def cumFrom (total : ℚ) : List ℚ → List ℚ
  | [] => []
  | r :: rs => (total + r) :: cumFrom (total + r) rs

/-- The `cumulative` list of `_calculate_metrics`. -/
def cumulative (returns : List ℚ) : List ℚ := cumFrom 0 returns

/-- The peak-tracking loop of `_calculate_metrics` (lines 492-500):
state is `(peak, max_dd)`; `peak` is raised to any new high and the
drawdown `peak - value` is recorded when it beats the running maximum. -/
def ddLoop (peak max_dd : ℚ) : List ℚ → ℚ
  | [] => max_dd
  | v :: vs =>
      ddLoop (if peak < v then v else peak)
        (if max_dd < (if peak < v then v else peak) - v
          then (if peak < v then v else peak) - v else max_dd) vs

/-- Metric `max_drawdown` as computed by `_calculate_metrics`: the peak starts
at `cumulative[0]` and the loop revisits every cumulative value. -/
def maxDrawdown (returns : List ℚ) : ℚ :=
  let cum := cumulative returns
  ddLoop (cum.headD 0) 0 cum

/-- The `BacktestResult` dataclass, restricted to the fields the claims
examine.  All defaults mirror the dataclass defaults (`0.0`, empty
list).  `profit_factor` is a float that can be `float('inf')`, modelled
as `Option ℚ` with `none` standing for infinity; its dataclass default
is the float `0.0`, i.e. `some 0`.  The date fields and the metrics
derived only from them (`annualized_return_percent`), the best/worst
trade references and the per-symbol map are not examined by any claim
and are omitted. -/
structure BacktestResult where
  trades : List BacktestTrade := []
  total_return_percent : ℚ := 0
  win_rate : ℚ := 0
  average_return : ℚ := 0
  average_win : ℚ := 0
  average_loss : ℚ := 0
  max_drawdown_percent : ℚ := 0
  sharpe_ratio : ℚ := 0
  profit_factor : Option ℚ := some 0
  total_trades : ℕ := 0
  winning_trades : ℕ := 0
  losing_trades : ℕ := 0
  deriving DecidableEq

/-- Source `Backtester._calculate_metrics`: fills the metric fields of a
result from its trades.  With no trades it returns immediately, leaving
every field as it was.  `sqrtQ` stands for the float square root used by
`statistics.stdev` and `np.sqrt(252)`. -/
def calculate_metrics (sqrtQ : ℚ → ℚ) (result : BacktestResult) : BacktestResult :=
  let trades := result.trades
  if trades.isEmpty then result
  else
    let total_trades := trades.length
    let winning_trades := (trades.filter BacktestTrade.is_profitable).length
    let losing_trades := total_trades - winning_trades
    let returns := trades.map BacktestTrade.return_percent
    let winning_returns :=
      (trades.filter BacktestTrade.is_profitable).map BacktestTrade.return_percent
    let losing_returns :=
      (trades.filter fun t => !t.is_profitable).map BacktestTrade.return_percent
    let gross_profit :=
      ((trades.filter BacktestTrade.is_profitable).map BacktestTrade.profit_loss).sum
    let gross_loss :=
      |((trades.filter fun t => !t.is_profitable).map BacktestTrade.profit_loss).sum|
    let return_std := sqrtQ (sampleVariance returns)
    { result with
        total_trades := total_trades
        winning_trades := winning_trades
        losing_trades := losing_trades
        win_rate := ((winning_trades : ℚ) / (total_trades : ℚ)) * 100
        average_return := listMean returns
        average_win := if winning_returns.isEmpty then 0 else listMean winning_returns
        average_loss := if losing_returns.isEmpty then 0 else listMean losing_returns
        total_return_percent := returns.sum
        profit_factor :=
          if 0 < gross_loss then some (gross_profit / gross_loss) else none
        sharpe_ratio :=
          if 1 < returns.length ∧ 0 < return_std
            then listMean returns / return_std * sqrtQ 252
            else result.sharpe_ratio
        max_drawdown_percent := maxDrawdown returns }

/-- The `all_trades` accumulation of `run_backtest`: trades of each
successful symbol appended in symbol order (a symbol whose simulation
raises is caught, logged and contributes nothing, exactly like a symbol
with an empty trade list). -/
def joinTrades (symResults : List (List BacktestTrade)) : List BacktestTrade :=
  symResults.foldl (fun acc ts => acc ++ ts) []

/-- Source `Backtester.run_backtest`, from the per-symbol trade lists onward:
with no trades at all the freshly constructed result (all dataclass
defaults) is returned as is; otherwise the trades are attached and the
metrics computed.  The function is total: no input raises. -/
def run_backtest (sqrtQ : ℚ → ℚ) (symResults : List (List BacktestTrade)) :
    BacktestResult :=
  let all_trades := joinTrades symResults
  if all_trades.isEmpty then {}
  else calculate_metrics sqrtQ { trades := all_trades }

/-- Modelled from the spec: the largest peak-to-trough drop of a curve,
i.e. the maximum over every position of the curve's value there minus
the minimum value at or after that position (`0` for an empty curve;
the maximum is never negative since a position is its own trough). -/
def largestPeakToTroughDrop : List ℚ → ℚ
  | [] => 0
  | c :: cs => max (c - cs.foldl min c) (largestPeakToTroughDrop cs)

/-- Modelled from the spec: the trades of a run in chronological order
(sorted by entry date; the source nowhere builds this ordering). -/
def chronological (trades : List BacktestTrade) : List BacktestTrade :=
  List.insertionSort (fun a b => a.entry_date ≤ b.entry_date) trades

/-!
Helper lemmas on the indicator series.
-/

theorem gains_length (xs : List ℚ) : (gains xs).length = xs.length := by
  simp [gains]

theorem losses_length (xs : List ℚ) : (losses xs).length = xs.length := by
  simp [losses]

theorem trueRange_length (highs lows closes : List ℚ) :
    (trueRange highs lows closes).length = highs.length := by
  simp [trueRange]

theorem gains_nonneg {xs : List ℚ} {x : ℚ} (hx : x ∈ gains xs) : 0 ≤ x := by
  simp only [gains, List.mem_map, List.mem_range] at hx
  obtain ⟨i, -, rfl⟩ := hx
  split_ifs with h1 h2
  · exact le_refl 0
  · exact le_of_lt h2
  · exact le_refl 0

theorem losses_nonneg {xs : List ℚ} {x : ℚ} (hx : x ∈ losses xs) : 0 ≤ x := by
  simp only [losses, List.mem_map, List.mem_range] at hx
  obtain ⟨i, -, rfl⟩ := hx
  split_ifs with h1 h2
  · exact le_refl 0
  · simpa using le_of_lt h2
  · exact le_refl 0

theorem rollingMean_getD (d : Option ℚ) {n : ℕ} {xs : List ℚ} {i : ℕ}
    (h : i < xs.length) :
    (rollingMean n xs).getD i d =
      if i + 1 < n then none
      else some (((xs.take (i + 1)).drop (i + 1 - n)).sum / (n : ℚ)) := by
  unfold rollingMean
  exact getD_map_range _ d h

theorem rollingMean_window_nonneg {n : ℕ} {xs : List ℚ}
    (hxs : ∀ x ∈ xs, 0 ≤ x) (i : ℕ) :
    0 ≤ ((xs.take (i + 1)).drop (i + 1 - n)).sum / (n : ℚ) := by
  refine div_nonneg (List.sum_nonneg fun x hx => ?_) (by positivity)
  exact hxs x (List.mem_of_mem_take (List.mem_of_mem_drop hx))

theorem rsi_getD_warmup {xs : List ℚ} {p i : ℕ} (h : i < xs.length)
    (hp : i + 1 < p) (d : Option ℚ) :
    (calculate_rsi xs p).getD i d = none := by
  simp only [calculate_rsi]
  rw [getD_map_range _ d h]
  rw [rollingMean_getD none (by rw [gains_length]; exact h),
    rollingMean_getD none (by rw [losses_length]; exact h), if_pos hp]

theorem rsi_getD_defined {xs : List ℚ} {p i : ℕ} (h : i < xs.length)
    (hp : ¬ i + 1 < p) (d : Option ℚ) :
    (calculate_rsi xs p).getD i d =
      (if (((losses xs).take (i + 1)).drop (i + 1 - p)).sum / (p : ℚ) = 0 then
        (if (((gains xs).take (i + 1)).drop (i + 1 - p)).sum / (p : ℚ) = 0 then none
          else some 100)
        else some (100 - 100 /
          (1 + ((((gains xs).take (i + 1)).drop (i + 1 - p)).sum / (p : ℚ)) /
            ((((losses xs).take (i + 1)).drop (i + 1 - p)).sum / (p : ℚ))))) := by
  simp only [calculate_rsi]
  rw [getD_map_range _ d h]
  rw [rollingMean_getD none (by rw [gains_length]; exact h),
    rollingMean_getD none (by rw [losses_length]; exact h), if_neg hp, if_neg hp]

theorem rollingStd_getD (d : Option ℚ) {sqrtQ : ℚ → ℚ} {n : ℕ} {xs : List ℚ}
    {i : ℕ} (h : i < xs.length) :
    (rollingStd sqrtQ n xs).getD i d =
      if i + 1 < n then none
      else
        some (sqrtQ ((((xs.take (i + 1)).drop (i + 1 - n)).map fun x =>
          (x - ((xs.take (i + 1)).drop (i + 1 - n)).sum / (n : ℚ)) ^ 2).sum /
            ((n : ℚ) - 1))) := by
  unfold rollingStd
  exact getD_map_range _ d h

theorem bollinger_upper_getD (d : Option ℚ) {sqrtQ : ℚ → ℚ} {n : ℕ}
    {k : ℚ} {xs : List ℚ} {i : ℕ} (h : i < xs.length) :
    ((calculate_bollinger_bands sqrtQ xs n k).upper.getD i d = none ↔ i + 1 < n) ∧
    (¬ i + 1 < n → ((calculate_bollinger_bands sqrtQ xs n k).upper.getD i d).isSome) := by
  simp only [calculate_bollinger_bands]
  rw [getD_map_range _ d h]
  rw [rollingMean_getD none h, rollingStd_getD none h]
  by_cases hp : i + 1 < n
  · rw [if_pos hp, if_pos hp]
    simp [hp]
  · rw [if_neg hp, if_neg hp]
    simp [hp]

theorem bollinger_lower_getD (d : Option ℚ) {sqrtQ : ℚ → ℚ} {n : ℕ}
    {k : ℚ} {xs : List ℚ} {i : ℕ} (h : i < xs.length) :
    ((calculate_bollinger_bands sqrtQ xs n k).lower.getD i d = none ↔ i + 1 < n) ∧
    (¬ i + 1 < n → ((calculate_bollinger_bands sqrtQ xs n k).lower.getD i d).isSome) := by
  simp only [calculate_bollinger_bands]
  rw [getD_map_range _ d h]
  rw [rollingMean_getD none h, rollingStd_getD none h]
  by_cases hp : i + 1 < n
  · rw [if_pos hp, if_pos hp]
    simp [hp]
  · rw [if_neg hp, if_neg hp]
    simp [hp]

theorem stochastic_k_getD (d : Option ℚ) {highs lows closes : List ℚ} {p i : ℕ}
    (h : i < closes.length) :
    (calculate_stochastic_k highs lows closes p).getD i d =
      if i + 1 < p then none
      else
        (if ((highs.take (i + 1)).drop (i + 1 - p)).foldl max (highs.getD i 0) =
            ((lows.take (i + 1)).drop (i + 1 - p)).foldl min (lows.getD i 0) then none
          else some (100 * (closes.getD i 0 -
            ((lows.take (i + 1)).drop (i + 1 - p)).foldl min (lows.getD i 0)) /
            (((highs.take (i + 1)).drop (i + 1 - p)).foldl max (highs.getD i 0) -
              ((lows.take (i + 1)).drop (i + 1 - p)).foldl min (lows.getD i 0)))) := by
  unfold calculate_stochastic_k
  exact getD_map_range _ d h


theorem gains_replicate_eq_zero {m : ℕ} {c x : ℚ}
    (hx : x ∈ gains (List.replicate m c)) : x = 0 := by
  simp only [gains, List.mem_map, List.mem_range, List.length_replicate] at hx
  obtain ⟨i, hi, rfl⟩ := hx
  by_cases h0 : i = 0
  · simp [h0]
  · have h1 : (List.replicate m c)[i]?.getD 0 = c := by
      simp [List.getElem?_replicate, hi]
    have h2 : (List.replicate m c)[i - 1]?.getD 0 = c := by
      have hi1 : i - 1 < m := by omega
      simp [List.getElem?_replicate, hi1]
    simp [h0, List.getD, h1, h2]

theorem losses_replicate_eq_zero {m : ℕ} {c x : ℚ}
    (hx : x ∈ losses (List.replicate m c)) : x = 0 := by
  simp only [losses, List.mem_map, List.mem_range, List.length_replicate] at hx
  obtain ⟨i, hi, rfl⟩ := hx
  by_cases h0 : i = 0
  · simp [h0]
  · have h1 : (List.replicate m c)[i]?.getD 0 = c := by
      simp [List.getElem?_replicate, hi]
    have h2 : (List.replicate m c)[i - 1]?.getD 0 = c := by
      have hi1 : i - 1 < m := by omega
      simp [List.getElem?_replicate, hi1]
    simp [h0, List.getD, h1, h2]

/-- C3, counterexample to the claim as stated: on 14 constant bars the
RSI(14) series is undefined at position 13 = window − 1 (the trailing
average gain and average loss are both zero, so the source computes the
float `0/0 = NaN`), although the claim requires every position from
window − 1 upward to hold a defined value. -/
theorem rsi_definedness_counterexample :
    (List.replicate 14 (100 : ℚ)).length = 14 ∧
    (calculate_rsi (List.replicate 14 (100 : ℚ)) 14).length = 14 ∧
    14 ≤ 13 + 1 ∧
    (calculate_rsi (List.replicate 14 (100 : ℚ)) 14).getD 13 (some 0) = none := by
  have h13 : (13 : ℕ) < (List.replicate 14 (100 : ℚ)).length := by simp
  have hg : ((((gains (List.replicate 14 (100 : ℚ))).take (13 + 1)).drop (13 + 1 - 14)).sum) = 0 :=
    List.sum_eq_zero fun x hx =>
      gains_replicate_eq_zero (List.mem_of_mem_take (List.mem_of_mem_drop hx))
  have hl : ((((losses (List.replicate 14 (100 : ℚ))).take (13 + 1)).drop (13 + 1 - 14)).sum) = 0 :=
    List.sum_eq_zero fun x hx =>
      losses_replicate_eq_zero (List.mem_of_mem_take (List.mem_of_mem_drop hx))
  refine ⟨by simp, by simp [calculate_rsi], by norm_num, ?_⟩
  rw [rsi_getD_defined h13 (by norm_num) (some 0), hg, hl]
  norm_num

/-- C3 (amended): for any input bars of length `L`, each of SMA(n),
RSI(14), Bollinger(20), ATR(14) and Stochastic %K(14) has length `L`;
positions before window − 1 hold the undefined sentinel; from
window − 1 onward SMA, Bollinger and ATR are always defined, while
RSI(14) and %K(14) are defined exactly when the trailing window is not
flat — RSI is undefined where the window's average gain and average
loss are both zero, %K where the window's highest high equals its
lowest low (float `0/0 = NaN` in the source). -/
theorem indicator_series_alignment (sqrtQ : ℚ → ℚ) (bars : List Bar) (n : ℕ) :
    (calculate_sma (bars.map Bar.close) n).length = bars.length ∧
    (calculate_rsi (bars.map Bar.close) 14).length = bars.length ∧
    (calculate_bollinger_bands sqrtQ (bars.map Bar.close) 20 2).upper.length = bars.length ∧
    (calculate_bollinger_bands sqrtQ (bars.map Bar.close) 20 2).middle.length = bars.length ∧
    (calculate_bollinger_bands sqrtQ (bars.map Bar.close) 20 2).lower.length = bars.length ∧
    (calculate_atr (bars.map Bar.high) (bars.map Bar.low) (bars.map Bar.close) 14).length = bars.length ∧
    (calculate_stochastic_k (bars.map Bar.high) (bars.map Bar.low) (bars.map Bar.close) 14).length = bars.length ∧
    (∀ i, i < bars.length →
      (i + 1 < n → (calculate_sma (bars.map Bar.close) n).getD i (some 0) = none) ∧
      (n ≤ i + 1 → ((calculate_sma (bars.map Bar.close) n).getD i none).isSome)) ∧
    (∀ i, i < bars.length →
      (i + 1 < 20 →
        (calculate_bollinger_bands sqrtQ (bars.map Bar.close) 20 2).upper.getD i (some 0) = none ∧
        (calculate_bollinger_bands sqrtQ (bars.map Bar.close) 20 2).middle.getD i (some 0) = none ∧
        (calculate_bollinger_bands sqrtQ (bars.map Bar.close) 20 2).lower.getD i (some 0) = none) ∧
      (20 ≤ i + 1 →
        ((calculate_bollinger_bands sqrtQ (bars.map Bar.close) 20 2).upper.getD i none).isSome ∧
        ((calculate_bollinger_bands sqrtQ (bars.map Bar.close) 20 2).middle.getD i none).isSome ∧
        ((calculate_bollinger_bands sqrtQ (bars.map Bar.close) 20 2).lower.getD i none).isSome)) ∧
    (∀ i, i < bars.length →
      (i + 1 < 14 →
        (calculate_atr (bars.map Bar.high) (bars.map Bar.low) (bars.map Bar.close) 14).getD i (some 0) = none) ∧
      (14 ≤ i + 1 →
        ((calculate_atr (bars.map Bar.high) (bars.map Bar.low) (bars.map Bar.close) 14).getD i none).isSome)) ∧
    (∀ i, i < bars.length →
      (i + 1 < 14 → (calculate_rsi (bars.map Bar.close) 14).getD i (some 0) = none) ∧
      (14 ≤ i + 1 →
        (¬((((gains (bars.map Bar.close)).take (i + 1)).drop (i + 1 - 14)).sum = 0 ∧
            (((losses (bars.map Bar.close)).take (i + 1)).drop (i + 1 - 14)).sum = 0) →
          ((calculate_rsi (bars.map Bar.close) 14).getD i none).isSome) ∧
        ((((gains (bars.map Bar.close)).take (i + 1)).drop (i + 1 - 14)).sum = 0 ∧
            (((losses (bars.map Bar.close)).take (i + 1)).drop (i + 1 - 14)).sum = 0 →
          (calculate_rsi (bars.map Bar.close) 14).getD i (some 0) = none))) ∧
    (∀ i, i < bars.length →
      (i + 1 < 14 →
        (calculate_stochastic_k (bars.map Bar.high) (bars.map Bar.low) (bars.map Bar.close) 14).getD i (some 0) = none) ∧
      (14 ≤ i + 1 →
        ((((bars.map Bar.high).take (i + 1)).drop (i + 1 - 14)).foldl max ((bars.map Bar.high).getD i 0) ≠
            (((bars.map Bar.low).take (i + 1)).drop (i + 1 - 14)).foldl min ((bars.map Bar.low).getD i 0) →
          ((calculate_stochastic_k (bars.map Bar.high) (bars.map Bar.low) (bars.map Bar.close) 14).getD i none).isSome) ∧
        ((((bars.map Bar.high).take (i + 1)).drop (i + 1 - 14)).foldl max ((bars.map Bar.high).getD i 0) =
            (((bars.map Bar.low).take (i + 1)).drop (i + 1 - 14)).foldl min ((bars.map Bar.low).getD i 0) →
          (calculate_stochastic_k (bars.map Bar.high) (bars.map Bar.low) (bars.map Bar.close) 14).getD i (some 0) = none))) := by
  have hc : (bars.map Bar.close).length = bars.length := by simp
  have hh : (bars.map Bar.high).length = bars.length := by simp
  refine ⟨by simp [calculate_sma, rollingMean], by simp [calculate_rsi],
    by simp [calculate_bollinger_bands], by simp [calculate_bollinger_bands, rollingMean],
    by simp [calculate_bollinger_bands],
    by simp [calculate_atr, rollingMean, trueRange],
    by simp [calculate_stochastic_k], ?_, ?_, ?_, ?_, ?_⟩
  · intro i hi
    have hi2 : i < (bars.map Bar.close).length := by omega
    constructor
    · intro hw
      unfold calculate_sma
      rw [rollingMean_getD _ hi2, if_pos hw]
    · intro hw
      unfold calculate_sma
      rw [rollingMean_getD _ hi2, if_neg (by omega)]
      rfl
  · intro i hi
    have hi2 : i < (bars.map Bar.close).length := by omega
    constructor
    · intro hw
      refine ⟨(bollinger_upper_getD _ hi2).1.mpr hw, ?_, (bollinger_lower_getD _ hi2).1.mpr hw⟩
      show (rollingMean 20 (bars.map Bar.close)).getD i (some 0) = none
      rw [rollingMean_getD _ hi2, if_pos hw]
    · intro hw
      refine ⟨(bollinger_upper_getD _ hi2).2 (by omega), ?_, (bollinger_lower_getD _ hi2).2 (by omega)⟩
      show ((rollingMean 20 (bars.map Bar.close)).getD i none).isSome
      rw [rollingMean_getD _ hi2, if_neg (by omega)]
      rfl
  · intro i hi
    have hi2 : i < (trueRange (bars.map Bar.high) (bars.map Bar.low) (bars.map Bar.close)).length := by
      rw [trueRange_length]; omega
    constructor
    · intro hw
      unfold calculate_atr
      rw [rollingMean_getD _ hi2, if_pos hw]
    · intro hw
      unfold calculate_atr
      rw [rollingMean_getD _ hi2, if_neg (by omega)]
      rfl
  · intro i hi
    have hi2 : i < (bars.map Bar.close).length := by omega
    refine ⟨fun hw => rsi_getD_warmup hi2 hw _, fun hw => ⟨?_, ?_⟩⟩
    · intro hne
      rw [rsi_getD_defined hi2 (by omega) none]
      by_cases hls : (((losses (bars.map Bar.close)).take (i + 1)).drop (i + 1 - 14)).sum = 0
      · have hgs : ¬ (((gains (bars.map Bar.close)).take (i + 1)).drop (i + 1 - 14)).sum = 0 := by
          tauto
        rw [if_pos (by rw [hls]; norm_num), if_neg (by
          rw [div_eq_zero_iff]
          push_neg
          exact ⟨hgs, by norm_num⟩)]
        rfl
      · rw [if_neg (by
          rw [div_eq_zero_iff]
          push_neg
          exact ⟨hls, by norm_num⟩)]
        rfl
    · rintro ⟨hgs, hls⟩
      rw [rsi_getD_defined hi2 (by omega) (some 0), if_pos (by rw [hls]; norm_num),
        if_pos (by rw [hgs]; norm_num)]
  · intro i hi
    have hi2 : i < (bars.map Bar.close).length := by omega
    refine ⟨fun hw => ?_, fun hw => ⟨fun hne => ?_, fun heq => ?_⟩⟩
    · rw [stochastic_k_getD _ hi2, if_pos hw]
    · rw [stochastic_k_getD _ hi2, if_neg (by omega), if_neg hne]
      rfl
    · rw [stochastic_k_getD _ hi2, if_neg (by omega), if_pos heq]

/-- Witness for C3 (amended) at a concrete input: 21 constant bars,
SMA(3) defined at position 4, RSI(14) undefined at position 4 (inside
the warm-up window). -/
theorem indicator_series_alignment_witness :
    ((calculate_sma ((List.replicate 21 (⟨2, 1, 1⟩ : Bar)).map Bar.close) 3).getD 4 none).isSome ∧
    (calculate_rsi ((List.replicate 21 (⟨2, 1, 1⟩ : Bar)).map Bar.close) 14).getD 4 (some 0) = none :=
  ⟨((indicator_series_alignment id (List.replicate 21 ⟨2, 1, 1⟩) 3).2.2.2.2.2.2.2.1 4
      (by simp)).2 (by norm_num),
    ((indicator_series_alignment id (List.replicate 21 ⟨2, 1, 1⟩) 3).2.2.2.2.2.2.2.2.2.2.1 4
      (by simp)).1 (by norm_num)⟩

/-- C4, counterexample to the claim as stated: on 14 constant bars the
trailing average loss at position 13 is exactly 0, yet the RSI value
there is not 100 — it is undefined, because the average gain is also 0
and the source computes the float `0/0 = NaN`. -/
theorem rsi_avg_loss_zero_counterexample :
    (rollingMean 14 (losses (List.replicate 14 (50 : ℚ)))).getD 13 none = some 0 ∧
    (calculate_rsi (List.replicate 14 (50 : ℚ)) 14).getD 13 (some 100) ≠ some 100 := by
  have h13 : (13 : ℕ) < (List.replicate 14 (50 : ℚ)).length := by simp
  have hg : ((((gains (List.replicate 14 (50 : ℚ))).take (13 + 1)).drop (13 + 1 - 14)).sum) = 0 :=
    List.sum_eq_zero fun x hx =>
      gains_replicate_eq_zero (List.mem_of_mem_take (List.mem_of_mem_drop hx))
  have hl : ((((losses (List.replicate 14 (50 : ℚ))).take (13 + 1)).drop (13 + 1 - 14)).sum) = 0 :=
    List.sum_eq_zero fun x hx =>
      losses_replicate_eq_zero (List.mem_of_mem_take (List.mem_of_mem_drop hx))
  constructor
  · rw [rollingMean_getD none (by rw [losses_length]; exact h13), if_neg (by norm_num), hl]
    norm_num
  · rw [rsi_getD_defined h13 (by norm_num) (some 100), hg, hl]
    simp

/-- C4 (amended): at a position at or past window − 1, if the trailing
average loss is exactly 0 and the trailing average gain is nonzero then
RSI is exactly 100 (the float division yields `+inf` and
`100 - 100/(1+inf) = 100`, no exception); if both averages are 0 the
value is undefined (`0/0 = NaN`); and every defined RSI value lies in
`[0, 100]`. -/
theorem rsi_division_guard_and_bounds (xs : List ℚ) (i : ℕ)
    (h : i < xs.length) (hw : 14 ≤ i + 1) :
    ((rollingMean 14 (losses xs)).getD i none = some 0 →
      (rollingMean 14 (gains xs)).getD i none ≠ some 0 →
      (calculate_rsi xs 14).getD i none = some 100) ∧
    ((rollingMean 14 (losses xs)).getD i none = some 0 →
      (rollingMean 14 (gains xs)).getD i none = some 0 →
      (calculate_rsi xs 14).getD i none = none) ∧
    (∀ v, (calculate_rsi xs 14).getD i none = some v → 0 ≤ v ∧ v ≤ 100) := by
  have hltg : i < (gains xs).length := by rw [gains_length]; exact h
  have hltl : i < (losses xs).length := by rw [losses_length]; exact h
  have hgd := rollingMean_getD (n := 14) none hltg
  have hld := rollingMean_getD (n := 14) none hltl
  rw [if_neg (by omega)] at hgd hld
  have hrsi := rsi_getD_defined (p := 14) h (by omega) none
  simp only [Nat.cast_ofNat] at hgd hld hrsi
  refine ⟨?_, ?_, ?_⟩
  · intro hl0 hgne
    rw [hld] at hl0
    rw [hgd] at hgne
    have hl0' : (((losses xs).take (i + 1)).drop (i + 1 - 14)).sum / (14 : ℚ) = 0 :=
      Option.some_injective _ hl0
    have hgne' : (((gains xs).take (i + 1)).drop (i + 1 - 14)).sum / (14 : ℚ) ≠ 0 :=
      fun hc => hgne (by rw [hc])
    rw [hrsi, if_pos hl0', if_neg hgne']
  · intro hl0 hg0
    rw [hld] at hl0
    rw [hgd] at hg0
    have hl0' : (((losses xs).take (i + 1)).drop (i + 1 - 14)).sum / (14 : ℚ) = 0 :=
      Option.some_injective _ hl0
    have hg0' : (((gains xs).take (i + 1)).drop (i + 1 - 14)).sum / (14 : ℚ) = 0 :=
      Option.some_injective _ hg0
    rw [hrsi, if_pos hl0', if_pos hg0']
  · intro v hv
    rw [hrsi] at hv
    set g := (((gains xs).take (i + 1)).drop (i + 1 - 14)).sum / (14 : ℚ) with hgdef
    set l := (((losses xs).take (i + 1)).drop (i + 1 - 14)).sum / (14 : ℚ) with hldef
    have hgnn : 0 ≤ g :=
      rollingMean_window_nonneg (fun x hx => gains_nonneg hx) i
    have hlnn : 0 ≤ l :=
      rollingMean_window_nonneg (fun x hx => losses_nonneg hx) i
    by_cases hl0 : l = 0
    · rw [if_pos hl0] at hv
      by_cases hg0 : g = 0
      · rw [if_pos hg0] at hv
        exact absurd hv (by simp)
      · rw [if_neg hg0] at hv
        have h100 : (100 : ℚ) = v := Option.some_injective _ hv
        rw [← h100]
        norm_num
    · rw [if_neg hl0] at hv
      have hveq : 100 - 100 / (1 + g / l) = v := Option.some_injective _ hv
      have hlpos : 0 < l := lt_of_le_of_ne hlnn (Ne.symm hl0)
      have hr : 0 ≤ g / l := div_nonneg hgnn hlpos.le
      have hfrac_pos : 0 ≤ 100 / (1 + g / l) :=
        div_nonneg (by norm_num) (by linarith)
      have hfrac_le : 100 / (1 + g / l) ≤ 100 :=
        div_le_self (by norm_num) (by linarith)
      rw [← hveq]
      exact ⟨by linarith, by linarith⟩

/-- Witness for C4 (amended) at 14 constant bars, position 13. -/
theorem rsi_division_guard_and_bounds_witness :
    ((rollingMean 14 (losses (List.replicate 14 (7 : ℚ)))).getD 13 none = some 0 →
      (rollingMean 14 (gains (List.replicate 14 (7 : ℚ)))).getD 13 none ≠ some 0 →
      (calculate_rsi (List.replicate 14 (7 : ℚ)) 14).getD 13 none = some 100) ∧
    ((rollingMean 14 (losses (List.replicate 14 (7 : ℚ)))).getD 13 none = some 0 →
      (rollingMean 14 (gains (List.replicate 14 (7 : ℚ)))).getD 13 none = some 0 →
      (calculate_rsi (List.replicate 14 (7 : ℚ)) 14).getD 13 none = none) ∧
    (∀ v, (calculate_rsi (List.replicate 14 (7 : ℚ)) 14).getD 13 none = some v →
      0 ≤ v ∧ v ≤ 100) :=
  rsi_division_guard_and_bounds (List.replicate 14 (7 : ℚ)) 13 (by simp) (by norm_num)


/-- C6: with at least one signal, the analyzer's confidence equals
`min(0.95, 0.4 + 0.5 * (max(buy_count, sell_count) / total))`; with no
signals it is `0.5`; in all cases it lies within `[0.1, 0.95]`. -/
theorem confidence_formula_and_bounds (signals : List TechnicalSignal) :
    (signals = [] → calculate_confidence signals = 1 / 2) ∧
    (signals ≠ [] → calculate_confidence signals =
      min (95 / 100) (4 / 10 +
        (((max (buy_count signals) (sell_count signals) : ℕ) : ℚ) /
          (signals.length : ℚ)) * (1 / 2))) ∧
    (1 / 10 ≤ calculate_confidence signals ∧
      calculate_confidence signals ≤ 95 / 100) := by
  have hempty : signals = [] → calculate_confidence signals = 1 / 2 := by
    intro h
    simp [calculate_confidence, h]
  have hfull : signals ≠ [] → calculate_confidence signals =
      min (95 / 100) (4 / 10 +
        (((max (buy_count signals) (sell_count signals) : ℕ) : ℚ) /
          (signals.length : ℚ)) * (1 / 2)) := by
    intro h
    simp only [calculate_confidence]
    rw [if_neg (by simpa using h)]
  refine ⟨hempty, hfull, ?_⟩
  by_cases h : signals = []
  · rw [hempty h]
    norm_num
  · rw [hfull h]
    have hpos : 0 < (signals.length : ℚ) := by
      have := List.length_pos.mpr h
      exact_mod_cast this
    have hrationn : (0 : ℚ) ≤
        (((max (buy_count signals) (sell_count signals) : ℕ) : ℚ) /
          (signals.length : ℚ)) :=
      div_nonneg (by positivity) hpos.le
    constructor
    · refine le_min (by norm_num) ?_
      nlinarith
    · exact min_le_left _ _

/-- Witness for C6 at a concrete one-signal list. -/
theorem confidence_formula_and_bounds_witness :
    ([(⟨"rsi", 25, Signal.strong_buy, 85 / 100, "RSI oversold"⟩ : TechnicalSignal)] = [] →
      calculate_confidence [⟨"rsi", 25, Signal.strong_buy, 85 / 100, "RSI oversold"⟩] = 1 / 2) ∧
    ([(⟨"rsi", 25, Signal.strong_buy, 85 / 100, "RSI oversold"⟩ : TechnicalSignal)] ≠ [] →
      calculate_confidence [⟨"rsi", 25, Signal.strong_buy, 85 / 100, "RSI oversold"⟩] =
        min (95 / 100) (4 / 10 +
          (((max (buy_count [⟨"rsi", 25, Signal.strong_buy, 85 / 100, "RSI oversold"⟩])
              (sell_count [⟨"rsi", 25, Signal.strong_buy, 85 / 100, "RSI oversold"⟩]) : ℕ) : ℚ) /
            (([(⟨"rsi", 25, Signal.strong_buy, 85 / 100, "RSI oversold"⟩ : TechnicalSignal)].length : ℕ) : ℚ)) * (1 / 2))) ∧
    (1 / 10 ≤ calculate_confidence [⟨"rsi", 25, Signal.strong_buy, 85 / 100, "RSI oversold"⟩] ∧
      calculate_confidence [⟨"rsi", 25, Signal.strong_buy, 85 / 100, "RSI oversold"⟩] ≤ 95 / 100) :=
  confidence_formula_and_bounds [⟨"rsi", 25, Signal.strong_buy, 85 / 100, "RSI oversold"⟩]

/-- C5, counterexample to the claim as stated: with lows `[1, 2, 3]`,
one high `100` and current price `10`, the support list comes out as
`[3, 2, 1]` — sorted descending (closest level first), not ascending as
the claim requires (`sorted(..., reverse=True)` in the source). -/
theorem support_sort_counterexample :
    (find_support_resistance [100] [1, 2, 3] 10 3).1 = [3, 2, 1] ∧
    ¬ List.Sorted (· ≤ ·) (find_support_resistance [100] [1, 2, 3] 10 3).1 := by
  have h : (find_support_resistance [100] [1, 2, 3] 10 3).1 = [3, 2, 1] := by
    norm_num [find_support_resistance, nlargest, nsmallest, sortAsc, sortDesc, last50,
      List.insertionSort, List.orderedInsert]
  refine ⟨h, ?_⟩
  rw [h]
  intro hs
  have h32 := List.rel_of_sorted_cons hs 2 (by simp)
  norm_num at h32

/-- C5 (amended): the analyzer returns at most `num_levels` support and
resistance levels; every support level lies strictly below the current
price and comes from the trailing-50 window of lows, every resistance
level lies strictly above it and comes from the trailing-50 window of
highs; resistance is sorted ascending but support is sorted descending
(closest to the price first).  Moreover the selection rule holds: the
returned levels are exactly the up-to-`num_levels` candidates closest
to the current price among the `2*num_levels` most extreme lows/highs
of the trailing 50 bars on the right side of the price — the returned
count is `min num_levels (number of qualifying candidates)`, every
returned level is such a candidate, and every qualifying candidate
that is not returned lies at least as far from the price as every
returned level (no farther candidate is ever preferred). -/
theorem support_resistance_levels (highs lows : List ℚ) (current_price : ℚ)
    (num_levels : ℕ) :
    (find_support_resistance highs lows current_price num_levels).1.length ≤ num_levels ∧
    (find_support_resistance highs lows current_price num_levels).2.length ≤ num_levels ∧
    (∀ x ∈ (find_support_resistance highs lows current_price num_levels).1,
      x < current_price ∧ x ∈ last50 lows) ∧
    (∀ x ∈ (find_support_resistance highs lows current_price num_levels).2,
      current_price < x ∧ x ∈ last50 highs) ∧
    List.Sorted (· ≥ ·) (find_support_resistance highs lows current_price num_levels).1 ∧
    List.Sorted (· ≤ ·) (find_support_resistance highs lows current_price num_levels).2 ∧
    (find_support_resistance highs lows current_price num_levels).1.length =
      min num_levels ((nsmallest (num_levels * 2) (last50 lows)).filter fun l =>
        decide (l < current_price)).length ∧
    (find_support_resistance highs lows current_price num_levels).2.length =
      min num_levels ((nlargest (num_levels * 2) (last50 highs)).filter fun h =>
        decide (current_price < h)).length ∧
    (∀ x ∈ (find_support_resistance highs lows current_price num_levels).1,
      x ∈ (nsmallest (num_levels * 2) (last50 lows)).filter fun l =>
        decide (l < current_price)) ∧
    (∀ x ∈ (find_support_resistance highs lows current_price num_levels).2,
      x ∈ (nlargest (num_levels * 2) (last50 highs)).filter fun h =>
        decide (current_price < h)) ∧
    (∀ y ∈ (nsmallest (num_levels * 2) (last50 lows)).filter fun l =>
        decide (l < current_price),
      y ∉ (find_support_resistance highs lows current_price num_levels).1 →
      ∀ x ∈ (find_support_resistance highs lows current_price num_levels).1, y ≤ x) ∧
    (∀ y ∈ (nlargest (num_levels * 2) (last50 highs)).filter fun h =>
        decide (current_price < h),
      y ∉ (find_support_resistance highs lows current_price num_levels).2 →
      ∀ x ∈ (find_support_resistance highs lows current_price num_levels).2, x ≤ y) := by
  have hasc_s : List.Sorted (· ≤ ·) (List.insertionSort (· ≤ ·)
      ((nsmallest (num_levels * 2) (last50 lows)).filter fun l =>
        decide (l < current_price))) :=
    List.sorted_insertionSort _ _
  have hsort_s : List.Sorted (· ≥ ·) (sortDesc
      ((nsmallest (num_levels * 2) (last50 lows)).filter fun l =>
        decide (l < current_price))) :=
    (List.pairwise_reverse).mpr hasc_s
  have hsort_r : List.Sorted (· ≤ ·) (sortAsc
      ((nlargest (num_levels * 2) (last50 highs)).filter fun h =>
        decide (current_price < h))) :=
    List.sorted_insertionSort _ _
  simp only [find_support_resistance]
  refine ⟨?_, ?_, ?_, ?_, ?_, ?_, ?_, ?_, ?_, ?_, ?_, ?_⟩
  · rw [List.length_take]
    exact min_le_left _ _
  · rw [List.length_take]
    exact min_le_left _ _
  · intro x hx
    have hx1 : x ∈ sortDesc ((nsmallest (num_levels * 2) (last50 lows)).filter
        fun l => decide (l < current_price)) := List.mem_of_mem_take hx
    have hx2 : x ∈ (nsmallest (num_levels * 2) (last50 lows)).filter
        fun l => decide (l < current_price) := by
      simpa [sortDesc, List.mem_insertionSort] using hx1
    rw [List.mem_filter] at hx2
    refine ⟨by simpa using hx2.2, ?_⟩
    have hx3 : x ∈ sortAsc (last50 lows) := List.mem_of_mem_take hx2.1
    simpa [sortAsc, List.mem_insertionSort] using hx3
  · intro x hx
    have hx1 : x ∈ sortAsc ((nlargest (num_levels * 2) (last50 highs)).filter
        fun h => decide (current_price < h)) := List.mem_of_mem_take hx
    have hx2 : x ∈ (nlargest (num_levels * 2) (last50 highs)).filter
        fun h => decide (current_price < h) := by
      simpa [sortAsc, List.mem_insertionSort] using hx1
    rw [List.mem_filter] at hx2
    refine ⟨by simpa using hx2.2, ?_⟩
    have hx3 : x ∈ sortDesc (last50 highs) := List.mem_of_mem_take hx2.1
    simpa [sortDesc, List.mem_insertionSort] using hx3
  · exact List.Pairwise.sublist (List.take_sublist _ _) hsort_s
  · exact List.Pairwise.sublist (List.take_sublist _ _) hsort_r
  · rw [List.length_take, sortDesc, List.length_reverse, List.length_insertionSort]
  · rw [List.length_take, sortAsc, List.length_insertionSort]
  · intro x hx
    have hx1 : x ∈ sortDesc ((nsmallest (num_levels * 2) (last50 lows)).filter
        fun l => decide (l < current_price)) := List.mem_of_mem_take hx
    simpa [sortDesc, List.mem_insertionSort] using hx1
  · intro x hx
    have hx1 : x ∈ sortAsc ((nlargest (num_levels * 2) (last50 highs)).filter
        fun h => decide (current_price < h)) := List.mem_of_mem_take hx
    simpa [sortAsc, List.mem_insertionSort] using hx1
  · intro y hy hynot x hx
    have hy1 : y ∈ sortDesc ((nsmallest (num_levels * 2) (last50 lows)).filter
        fun l => decide (l < current_price)) := by
      simpa [sortDesc, List.mem_insertionSort] using hy
    have hy2 : y ∈ (sortDesc ((nsmallest (num_levels * 2) (last50 lows)).filter
        fun l => decide (l < current_price))).drop num_levels := by
      have hy_app : y ∈ (sortDesc ((nsmallest (num_levels * 2) (last50 lows)).filter
            fun l => decide (l < current_price))).take num_levels ++
          (sortDesc ((nsmallest (num_levels * 2) (last50 lows)).filter
            fun l => decide (l < current_price))).drop num_levels := by
        rw [List.take_append_drop]
        exact hy1
      rcases List.mem_append.mp hy_app with h | h
      · exact absurd h hynot
      · exact h
    exact hsort_s.rel_of_mem_take_of_mem_drop hx hy2
  · intro y hy hynot x hx
    have hy1 : y ∈ sortAsc ((nlargest (num_levels * 2) (last50 highs)).filter
        fun h => decide (current_price < h)) := by
      simpa [sortAsc, List.mem_insertionSort] using hy
    have hy2 : y ∈ (sortAsc ((nlargest (num_levels * 2) (last50 highs)).filter
        fun h => decide (current_price < h))).drop num_levels := by
      have hy_app : y ∈ (sortAsc ((nlargest (num_levels * 2) (last50 highs)).filter
            fun h => decide (current_price < h))).take num_levels ++
          (sortAsc ((nlargest (num_levels * 2) (last50 highs)).filter
            fun h => decide (current_price < h))).drop num_levels := by
        rw [List.take_append_drop]
        exact hy1
      rcases List.mem_append.mp hy_app with h | h
      · exact absurd h hynot
      · exact h
    exact hsort_r.rel_of_mem_take_of_mem_drop hx hy2

/-- Witness for C5 (amended) at a concrete input: lows `[1, 2, 3]`,
highs `[5, 20, 30]`, current price 10, two levels requested. -/
theorem support_resistance_levels_witness :
    (find_support_resistance [5, 20, 30] [1, 2, 3] 10 2).1.length ≤ 2 ∧
    (find_support_resistance [5, 20, 30] [1, 2, 3] 10 2).2.length ≤ 2 ∧
    (∀ x ∈ (find_support_resistance [5, 20, 30] [1, 2, 3] 10 2).1,
      x < 10 ∧ x ∈ last50 [1, 2, 3]) ∧
    (∀ x ∈ (find_support_resistance [5, 20, 30] [1, 2, 3] 10 2).2,
      10 < x ∧ x ∈ last50 [5, 20, 30]) ∧
    List.Sorted (· ≥ ·) (find_support_resistance [5, 20, 30] [1, 2, 3] 10 2).1 ∧
    List.Sorted (· ≤ ·) (find_support_resistance [5, 20, 30] [1, 2, 3] 10 2).2 ∧
    (find_support_resistance [5, 20, 30] [1, 2, 3] 10 2).1.length =
      min 2 ((nsmallest (2 * 2) (last50 [1, 2, 3])).filter fun l =>
        decide (l < 10)).length ∧
    (find_support_resistance [5, 20, 30] [1, 2, 3] 10 2).2.length =
      min 2 ((nlargest (2 * 2) (last50 [5, 20, 30])).filter fun h =>
        decide (10 < h)).length ∧
    (∀ x ∈ (find_support_resistance [5, 20, 30] [1, 2, 3] 10 2).1,
      x ∈ (nsmallest (2 * 2) (last50 [1, 2, 3])).filter fun l =>
        decide (l < 10)) ∧
    (∀ x ∈ (find_support_resistance [5, 20, 30] [1, 2, 3] 10 2).2,
      x ∈ (nlargest (2 * 2) (last50 [5, 20, 30])).filter fun h =>
        decide (10 < h)) ∧
    (∀ y ∈ (nsmallest (2 * 2) (last50 [1, 2, 3])).filter fun l =>
        decide (l < 10),
      y ∉ (find_support_resistance [5, 20, 30] [1, 2, 3] 10 2).1 →
      ∀ x ∈ (find_support_resistance [5, 20, 30] [1, 2, 3] 10 2).1, y ≤ x) ∧
    (∀ y ∈ (nlargest (2 * 2) (last50 [5, 20, 30])).filter fun h =>
        decide (10 < h),
      y ∉ (find_support_resistance [5, 20, 30] [1, 2, 3] 10 2).2 →
      ∀ x ∈ (find_support_resistance [5, 20, 30] [1, 2, 3] 10 2).2, x ≤ y) :=
  support_resistance_levels [5, 20, 30] [1, 2, 3] 10 2

/-- A trade that has been closed by the simulation loop: exit fields
set, realized return and profit computed from the exit price, where
`ps` is the position size. -/
def ClosedTrade (ps : ℚ) (t : BacktestTrade) : Prop :=
  ∃ d p, t.exit_date = some d ∧ t.exit_price = some p ∧
    t.return_percent = (p - t.entry_price) / t.entry_price * 100 ∧
    t.profit_loss = ps * ((p - t.entry_price) / t.entry_price * 100) / 100

theorem exitUpdate_flags {ps : ℚ} {tr : BacktestTrade} {date : ℤ} {price : ℚ}
    {signal : String} (hft : tr.hit_target = false) (hfs : tr.hit_stop_loss = false) :
    ¬((exitUpdate ps tr date price signal).1.hit_target = true ∧
      (exitUpdate ps tr date price signal).1.hit_stop_loss = true) ∧
    ((exitUpdate ps tr date price signal).2 = false →
      (exitUpdate ps tr date price signal).1.hit_target = false ∧
      (exitUpdate ps tr date price signal).1.hit_stop_loss = false) := by
  simp only [exitUpdate]
  split_ifs <;> simp_all

theorem exitUpdate_closed {ps : ℚ} {tr : BacktestTrade} {date : ℤ} {price : ℚ}
    {signal : String} (hex : (exitUpdate ps tr date price signal).2 = true) :
    ClosedTrade ps (exitUpdate ps tr date price signal).1 := by
  refine ⟨date, price, ?_⟩
  simp only [exitUpdate] at hex ⊢
  split_ifs at hex ⊢ <;> simp_all

theorem symbolStep_flags {symbol : String} {ps : ℚ} {sig : ℕ → String × ℚ}
    {atr : ℕ → Option ℚ} {i : ℕ} {b : PriceBar} {st : SymbolState}
    (h1 : ∀ t ∈ st.trades, ¬(t.hit_target = true ∧ t.hit_stop_loss = true))
    (h2 : ∀ tr, st.current = some tr →
      tr.hit_target = false ∧ tr.hit_stop_loss = false) :
    (∀ t ∈ (symbolStep symbol ps sig atr i b st).trades,
      ¬(t.hit_target = true ∧ t.hit_stop_loss = true)) ∧
    (∀ tr, (symbolStep symbol ps sig atr i b st).current = some tr →
      tr.hit_target = false ∧ tr.hit_stop_loss = false) := by
  cases hcur : st.current with
  | none =>
      simp only [symbolStep, hcur]
      split_ifs
      · exact ⟨h1, by rintro tr hc; cases hc; exact ⟨rfl, rfl⟩⟩
      · exact ⟨h1, h2⟩
  | some tr =>
      obtain ⟨hft, hfs⟩ := h2 tr hcur
      have hflag := @exitUpdate_flags ps tr b.date b.close (sig i).1 hft hfs
      simp only [symbolStep, hcur]
      split_ifs with hex
      · refine ⟨fun t ht => ?_, by rintro tr2 hc; cases hc⟩
        rcases List.mem_append.mp ht with h | h
        · exact h1 t h
        · rcases List.mem_singleton.mp h with rfl
          exact hflag.1
      · refine ⟨h1, ?_⟩
        rintro tr2 hc
        cases hc
        exact hflag.2 (by simpa using hex)

theorem symbolStep_closed {symbol : String} {ps : ℚ} {sig : ℕ → String × ℚ}
    {atr : ℕ → Option ℚ} {i : ℕ} {b : PriceBar} {st : SymbolState}
    (h1 : ∀ t ∈ st.trades, ClosedTrade ps t) :
    ∀ t ∈ (symbolStep symbol ps sig atr i b st).trades, ClosedTrade ps t := by
  cases hcur : st.current with
  | none =>
      simp only [symbolStep, hcur]
      split_ifs
      · exact h1
      · exact h1
  | some tr =>
      simp only [symbolStep, hcur]
      split_ifs with hex
      · intro t ht
        rcases List.mem_append.mp ht with h | h
        · exact h1 t h
        · rcases List.mem_singleton.mp h with rfl
          exact exitUpdate_closed (by simpa using hex)
      · exact h1

theorem runSymbol_flags {symbol : String} {ps : ℚ} {sig : ℕ → String × ℚ}
    {atr : ℕ → Option ℚ} (l : List (ℕ × PriceBar)) (st : SymbolState)
    (h1 : ∀ t ∈ st.trades, ¬(t.hit_target = true ∧ t.hit_stop_loss = true))
    (h2 : ∀ tr, st.current = some tr →
      tr.hit_target = false ∧ tr.hit_stop_loss = false) :
    ∀ t ∈ (runSymbol symbol ps sig atr l st).trades,
      ¬(t.hit_target = true ∧ t.hit_stop_loss = true) := by
  induction l generalizing st with
  | nil => exact h1
  | cons p rest ih =>
      obtain ⟨i, b⟩ := p
      have hstep := @symbolStep_flags symbol ps sig atr i b st h1 h2
      exact ih _ hstep.1 hstep.2

theorem runSymbol_closed {symbol : String} {ps : ℚ} {sig : ℕ → String × ℚ}
    {atr : ℕ → Option ℚ} (l : List (ℕ × PriceBar)) (st : SymbolState)
    (h1 : ∀ t ∈ st.trades, ClosedTrade ps t) :
    ∀ t ∈ (runSymbol symbol ps sig atr l st).trades, ClosedTrade ps t := by
  induction l generalizing st with
  | nil => exact h1
  | cons p rest ih =>
      obtain ⟨i, b⟩ := p
      exact ih _ (symbolStep_closed h1)

/-- C1: while in position, a bar whose close reaches the target closes
the trade with `hit_target = true` and `hit_stop_loss = false` no
matter what the strategy signals or how long the position has been
held; and no trade the per-symbol simulation returns ever carries both
`hit_target` and `hit_stop_loss`. -/
theorem exit_priority_target_first :
    (∀ (ps : ℚ) (tr : BacktestTrade) (date : ℤ) (price : ℚ) (signal : String),
      tr.hit_stop_loss = false → tr.target_price ≤ price →
      (exitUpdate ps tr date price signal).2 = true ∧
      (exitUpdate ps tr date price signal).1.hit_target = true ∧
      (exitUpdate ps tr date price signal).1.hit_stop_loss = false) ∧
    (∀ (symbol : String) (ps : ℚ) (sig : ℕ → String × ℚ) (atr : ℕ → Option ℚ)
      (bars : List PriceBar),
      ∀ t ∈ backtest_symbol symbol ps sig atr bars,
        ¬(t.hit_target = true ∧ t.hit_stop_loss = true)) := by
  constructor
  · intro ps tr date price signal hfs hle
    simp [exitUpdate, hle, hfs]
  · intro symbol ps sig atr bars t ht
    unfold backtest_symbol at ht
    split_ifs at ht with hlen
    · simp at ht
    · exact runSymbol_flags _ _ (by simp) (fun tr hc => Option.noConfusion hc) t ht

/-- C10: every trade returned by the per-symbol simulation is closed —
exit date and price set, realized return and profit computed from them;
a position still open when the bars run out is only part of the
discarded loop state and never reaches the returned list. -/
theorem backtest_symbol_trades_closed :
    ∀ (symbol : String) (ps : ℚ) (sig : ℕ → String × ℚ) (atr : ℕ → Option ℚ)
      (bars : List PriceBar),
      ∀ t ∈ backtest_symbol symbol ps sig atr bars, ClosedTrade ps t := by
  intro symbol ps sig atr bars t ht
  unfold backtest_symbol at ht
  split_ifs at ht with hlen
  · simp at ht
  · exact runSymbol_closed _ _ (by simp) t ht

/-- An open position used to witness C1: target 102, both exit flags
still clear. -/
def probeTrade : BacktestTrade :=
  { symbol := "X", entry_date := 0, entry_price := 100, target_price := 102,
    stop_loss := 197 / 2, confidence := 7 / 10, technical_score := 7 / 10 }

/-- Witness for C1 at a concrete open position: price 103 at or above
target 102, the strategy simultaneously signalling sell. -/
theorem exit_priority_target_first_witness :
    (exitUpdate 1000 probeTrade 1 103 "sell").2 = true ∧
    (exitUpdate 1000 probeTrade 1 103 "sell").1.hit_target = true ∧
    (exitUpdate 1000 probeTrade 1 103 "sell").1.hit_stop_loss = false :=
  exit_priority_target_first.1 1000 probeTrade 1 103 "sell" rfl
    (by norm_num [probeTrade])

def demoSig (i : ℕ) : String × ℚ := if i = 50 then ("buy", 7 / 10) else ("hold", 1 / 2)

def demoAtr (_ : ℕ) : Option ℚ := some 1

def demoBars : List PriceBar := List.replicate 50 ⟨0, 100⟩ ++ [⟨50, 100⟩, ⟨51, 103⟩]

def demoTrade : BacktestTrade :=
  { symbol := "X", entry_date := 50, entry_price := 100, exit_date := some 51,
    exit_price := some 103, action := "buy", target_price := 102,
    stop_loss := 197 / 2, return_percent := 3, profit_loss := 300,
    hit_target := true, hit_stop_loss := false, confidence := 7 / 10,
    technical_score := 7 / 10 }

theorem demo_backtest_eval :
    backtest_symbol "X" 10000 demoSig demoAtr demoBars = [demoTrade] := by
  have hdrop : demoBars.drop 50 = [⟨50, 100⟩, ⟨51, 103⟩] :=
    List.drop_left' (by simp)
  have hlen : demoBars.length = 52 := by simp [demoBars]
  rw [backtest_symbol, if_neg (by rw [hlen]; norm_num), hdrop]
  norm_num [List.enumFrom, runSymbol, symbolStep, demoSig, demoAtr, openTrade,
    exitUpdate, demoTrade]

/-- Witness for C10: the trade produced by a concrete 52-bar run is
closed. -/
theorem backtest_symbol_trades_closed_witness : ClosedTrade 10000 demoTrade :=
  backtest_symbol_trades_closed "X" 10000 demoSig demoAtr demoBars demoTrade
    (by rw [demo_backtest_eval]; exact List.mem_singleton.mpr rfl)

/-- C2, counterexample to the claim's fallback: with the ATR column
absent the source substitutes `price * 0.02` for the ATR value itself
and still multiplies by 2 and 1.5, so at price 100 the target is 104
(+4%), not 102 (+2%), and the stop is 97 (−3%), not 98.5 (−1.5%). -/
theorem entry_fallback_counterexample :
    (openTrade "X" 0 100 (7 / 10) none).target_price = 104 ∧
    (openTrade "X" 0 100 (7 / 10) none).stop_loss = 97 ∧
    (openTrade "X" 0 100 (7 / 10) none).target_price ≠ 102 ∧
    (openTrade "X" 0 100 (7 / 10) none).stop_loss ≠ 197 / 2 := by
  norm_num [openTrade]

/-- C2 (amended): from a flat state, a "buy" signal with confidence
strictly above 0.6 opens a long trade at the bar's close with target
`entry + 2*ATR` and stop `entry − 1.5*ATR` when the ATR value is
available; when it is not, the ATR itself falls back to 2% of the
price, making the target `entry + 4%` and the stop `entry − 3%`; any
other signal, or confidence at or below 0.6, leaves the state
unchanged. -/
theorem entry_opens_trade (symbol : String) (ps : ℚ) (sig : ℕ → String × ℚ)
    (atr : ℕ → Option ℚ) (i : ℕ) (bar : PriceBar) (st : SymbolState)
    (hflat : st.current = none) :
    ((sig i).1 = "buy" → 3 / 5 < (sig i).2 →
      (symbolStep symbol ps sig atr i bar st).trades = st.trades ∧
      (symbolStep symbol ps sig atr i bar st).current =
        some (openTrade symbol bar.date bar.close (sig i).2 (atr i)) ∧
      (openTrade symbol bar.date bar.close (sig i).2 (atr i)).entry_price = bar.close ∧
      (openTrade symbol bar.date bar.close (sig i).2 (atr i)).entry_date = bar.date ∧
      (openTrade symbol bar.date bar.close (sig i).2 (atr i)).confidence = (sig i).2 ∧
      (openTrade symbol bar.date bar.close (sig i).2 (atr i)).exit_date = none ∧
      (∀ a, atr i = some a →
        (openTrade symbol bar.date bar.close (sig i).2 (atr i)).target_price =
          bar.close + 2 * a ∧
        (openTrade symbol bar.date bar.close (sig i).2 (atr i)).stop_loss =
          bar.close - (3 / 2) * a) ∧
      (atr i = none →
        (openTrade symbol bar.date bar.close (sig i).2 (atr i)).target_price =
          bar.close + bar.close * (4 / 100) ∧
        (openTrade symbol bar.date bar.close (sig i).2 (atr i)).stop_loss =
          bar.close - bar.close * (3 / 100))) ∧
    (¬((sig i).1 = "buy" ∧ 3 / 5 < (sig i).2) →
      symbolStep symbol ps sig atr i bar st = st) := by
  constructor
  · intro hb hc
    refine ⟨?_, ?_, by simp [openTrade], by simp [openTrade], by simp [openTrade],
      by simp [openTrade], ?_, ?_⟩
    · simp only [symbolStep, hflat]
      rw [if_pos ⟨hb, hc⟩]
    · simp only [symbolStep, hflat]
      rw [if_pos ⟨hb, hc⟩]
    · intro a ha
      constructor
      · simp [openTrade, ha]
        ring
      · simp [openTrade, ha]
        ring
    · intro ha
      constructor
      · simp [openTrade, ha]
        ring
      · simp [openTrade, ha]
        ring
  · intro hn
    simp only [symbolStep, hflat]
    rw [if_neg hn]

/-- Witness for C2 (amended) at a concrete flat state and bar: signal
"buy" with confidence 0.8, ATR 2, close 50. -/
theorem entry_opens_trade_witness :
    (symbolStep "Y" 500 (fun _ => ("buy", 4 / 5)) (fun _ => some 2) 0 ⟨0, 50⟩
      ⟨[], none⟩).trades = [] ∧
    (symbolStep "Y" 500 (fun _ => ("buy", 4 / 5)) (fun _ => some 2) 0 ⟨0, 50⟩
      ⟨[], none⟩).current = some (openTrade "Y" 0 50 (4 / 5) (some 2)) ∧
    (openTrade "Y" 0 50 (4 / 5) (some 2)).entry_price = 50 ∧
    (openTrade "Y" 0 50 (4 / 5) (some 2)).entry_date = 0 ∧
    (openTrade "Y" 0 50 (4 / 5) (some 2)).confidence = 4 / 5 ∧
    (openTrade "Y" 0 50 (4 / 5) (some 2)).exit_date = none ∧
    (openTrade "Y" 0 50 (4 / 5) (some 2)).target_price = 50 + 2 * 2 ∧
    (openTrade "Y" 0 50 (4 / 5) (some 2)).stop_loss = 50 - (3 / 2) * 2 := by
  have h := (entry_opens_trade "Y" 500 (fun _ => ("buy", 4 / 5))
    (fun _ => some 2) 0 ⟨0, 50⟩ ⟨[], none⟩ rfl).1 rfl (by norm_num)
  exact ⟨h.1, h.2.1, h.2.2.1, h.2.2.2.1, h.2.2.2.2.1, h.2.2.2.2.2.1,
    (h.2.2.2.2.2.2.1 2 rfl).1, (h.2.2.2.2.2.2.1 2 rfl).2⟩

/-- The candidate drawdowns of the peak-tracking loop, with the running
peak made explicit: for each position, (max of `peak` and the values so
far) minus the value there. -/
def ddFrom (peak : ℚ) : List ℚ → ℚ
  | [] => 0
  | v :: vs => max (max peak v - v) (ddFrom (max peak v) vs)

theorem ddFrom_cons (peak v : ℚ) (vs : List ℚ) :
    ddFrom peak (v :: vs) = max (max peak v - v) (ddFrom (max peak v) vs) := rfl

theorem lptd_cons (c : ℚ) (cs : List ℚ) :
    largestPeakToTroughDrop (c :: cs) =
      max (c - cs.foldl min c) (largestPeakToTroughDrop cs) := rfl

theorem if_lt_max (a b : ℚ) : (if a < b then b else a) = max a b := by
  rcases le_or_lt b a with h | h
  · rw [if_neg (not_lt.mpr h), max_eq_left h]
  · rw [if_pos h, max_eq_right h.le]

theorem ddLoop_eq_max (peak : ℚ) {m : ℚ} (vs : List ℚ) (hm : 0 ≤ m) :
    ddLoop peak m vs = max m (ddFrom peak vs) := by
  induction vs generalizing peak m with
  | nil =>
      simp only [ddLoop, ddFrom]
      rw [max_eq_left hm]
  | cons v vs ih =>
      simp only [ddLoop, ddFrom_cons]
      rw [if_lt_max, if_lt_max]
      rw [ih (max peak v) (le_trans hm (le_max_left _ _))]
      exact max_assoc m _ _

theorem foldl_min_min (a b : ℚ) (l : List ℚ) :
    l.foldl min (min a b) = min a (l.foldl min b) := by
  induction l generalizing b with
  | nil => rfl
  | cons c l ih =>
      simp only [List.foldl_cons]
      rw [min_assoc, ih]

theorem foldl_min_le_init (b : ℚ) (l : List ℚ) : l.foldl min b ≤ b := by
  induction l generalizing b with
  | nil => exact le_refl b
  | cons c l ih =>
      simp only [List.foldl_cons]
      exact le_trans (ih (min b c)) (min_le_left b c)

theorem lptd_nonneg (l : List ℚ) : 0 ≤ largestPeakToTroughDrop l := by
  induction l with
  | nil => exact le_refl 0
  | cons c cs ih =>
      rw [lptd_cons]
      exact le_max_of_le_left (sub_nonneg.mpr (foldl_min_le_init c cs))

theorem ddFrom_eq_lptd (vs : List ℚ) (v peak : ℚ) :
    ddFrom peak (v :: vs) =
      max (peak - vs.foldl min v) (largestPeakToTroughDrop (v :: vs)) := by
  induction vs generalizing v peak with
  | nil =>
      rw [ddFrom_cons, lptd_cons]
      simp only [List.foldl_nil, ddFrom, largestPeakToTroughDrop]
      rw [← max_sub_sub_right peak v v, sub_self, max_assoc, max_self]
  | cons w ws ih =>
      rw [ddFrom_cons, ih w (max peak v), lptd_cons v (w :: ws)]
      simp only [List.foldl_cons]
      rw [foldl_min_min v w ws]
      rw [← max_sub_sub_right peak v v, sub_self,
        ← max_sub_sub_right peak v (ws.foldl min w),
        ← max_sub_sub_left peak v (ws.foldl min w),
        ← max_sub_sub_left v v (ws.foldl min w), sub_self]
      ac_rfl

theorem maxDrawdown_eq_lptd (returns : List ℚ) :
    maxDrawdown returns = largestPeakToTroughDrop (cumulative returns) := by
  unfold maxDrawdown
  cases hc : cumulative returns with
  | nil => simp [ddLoop, largestPeakToTroughDrop]
  | cons c cs =>
      show ddLoop ((c :: cs).headD 0) 0 (c :: cs) = largestPeakToTroughDrop (c :: cs)
      rw [List.headD_cons, ddLoop_eq_max c (c :: cs) le_rfl, ddFrom_eq_lptd cs c c,
        lptd_cons c cs, ← max_assoc (c - cs.foldl min c), max_self, ← lptd_cons c cs]
      exact max_eq_right (lptd_nonneg _)

/-- C9 (amended): for any run with at least one trade, the reported
max drawdown equals the largest peak-to-trough drop of the
cumulative-return curve taken in the order the trades appear in the
aggregated list — each symbol's trades chronological, symbols
concatenated in input order — which is not globally chronological in
multi-symbol runs. -/
theorem max_drawdown_list_order (sqrtQ : ℚ → ℚ)
    (srs : List (List BacktestTrade)) (h : joinTrades srs ≠ []) :
    (run_backtest sqrtQ srs).max_drawdown_percent =
      largestPeakToTroughDrop (cumulative
        ((joinTrades srs).map BacktestTrade.return_percent)) := by
  unfold run_backtest
  rw [if_neg (by simpa using h)]
  simp only [calculate_metrics]
  rw [if_neg (by simpa using h)]
  exact maxDrawdown_eq_lptd _

def tradeA : BacktestTrade :=
  { symbol := "A", entry_date := 10, entry_price := 100, exit_date := some 11,
    exit_price := some 110, return_percent := 10, profit_loss := 1000 }

def tradeB1 : BacktestTrade :=
  { symbol := "B", entry_date := 0, entry_price := 100, exit_date := some 1,
    exit_price := some 80, return_percent := -20, profit_loss := -2000 }

def tradeB2 : BacktestTrade :=
  { symbol := "B", entry_date := 20, entry_price := 100, exit_date := some 21,
    exit_price := some 110, return_percent := 10, profit_loss := 1000 }

/-- C9, counterexample to the claim as stated: symbol A's trade (entry
day 10, +10%) is aggregated before symbol B's earlier trade (entry day
0, −20%), so the code computes drawdown over the curve of
`[+10, −20, +10]` and reports 20, while the curve built in
chronological order (`[−20, +10, +10]`) has largest peak-to-trough
drop 0. -/
theorem drawdown_order_counterexample :
    (run_backtest id [[tradeA], [tradeB1, tradeB2]]).max_drawdown_percent = 20 ∧
    largestPeakToTroughDrop (cumulative
      ((chronological (joinTrades [[tradeA], [tradeB1, tradeB2]])).map
        BacktestTrade.return_percent)) = 0 ∧
    (20 : ℚ) ≠ 0 := by
  refine ⟨?_, ?_, by norm_num⟩
  · unfold run_backtest
    rw [if_neg (by simp [joinTrades])]
    simp only [calculate_metrics]
    rw [if_neg (by simp [joinTrades])]
    norm_num [joinTrades, tradeA, tradeB1, tradeB2, maxDrawdown, ddLoop,
      cumulative, cumFrom]
  · norm_num [joinTrades, chronological, List.insertionSort, List.orderedInsert,
      tradeA, tradeB1, tradeB2, cumulative, cumFrom, largestPeakToTroughDrop]

/-- Witness for C9 (amended) on a concrete single-symbol run. -/
theorem max_drawdown_list_order_witness :
    (run_backtest id [[tradeA]]).max_drawdown_percent =
      largestPeakToTroughDrop (cumulative
        ((joinTrades [[tradeA]]).map BacktestTrade.return_percent)) :=
  max_drawdown_list_order id [[tradeA]] (by simp [joinTrades])

def winTrade : BacktestTrade :=
  { symbol := "W", entry_date := 0, entry_price := 100, exit_date := some 1,
    exit_price := some 105, return_percent := 5, profit_loss := 500 }

def lossTrade : BacktestTrade :=
  { symbol := "W", entry_date := 2, entry_price := 100, exit_date := some 3,
    exit_price := some 95, return_percent := -5, profit_loss := -500 }

/-- C7, counterexample to the claim as stated: with one winning and one
losing trade the stored `win_rate` is `50` — the win fraction times 100
(a percentage) — while `winning_trades / total_trades` is `1/2`. -/
theorem win_rate_units_counterexample :
    (run_backtest id [[winTrade, lossTrade]]).win_rate = 50 ∧
    (((run_backtest id [[winTrade, lossTrade]]).winning_trades : ℚ) /
      ((run_backtest id [[winTrade, lossTrade]]).total_trades : ℚ)) = 1 / 2 ∧
    (50 : ℚ) ≠ 1 / 2 := by
  have hrun : run_backtest id [[winTrade, lossTrade]] =
      calculate_metrics id { trades := [winTrade, lossTrade] } := by
    unfold run_backtest
    rw [if_neg (by simp [joinTrades])]
    norm_num [joinTrades]
  rw [hrun]
  refine ⟨?_, ?_, by norm_num⟩
  · simp only [calculate_metrics]
    rw [if_neg (by simp)]
    norm_num [winTrade, lossTrade, BacktestTrade.is_profitable]
  · simp only [calculate_metrics]
    rw [if_neg (by simp)]
    norm_num [winTrade, lossTrade, BacktestTrade.is_profitable]

/-- C7 (amended): for every run with at least one trade, the reported
`win_rate` is the winning fraction expressed as a percentage:
`winning_trades / total_trades * 100`, where a trade is winning exactly
when its `return_percent` is strictly positive; the rate always lies in
`[0, 100]`. -/
theorem win_rate_formula (sqrtQ : ℚ → ℚ) (srs : List (List BacktestTrade))
    (h : joinTrades srs ≠ []) :
    (run_backtest sqrtQ srs).total_trades = (joinTrades srs).length ∧
    (run_backtest sqrtQ srs).winning_trades =
      ((joinTrades srs).filter fun t => decide (0 < t.return_percent)).length ∧
    (run_backtest sqrtQ srs).losing_trades =
      (joinTrades srs).length -
        ((joinTrades srs).filter fun t => decide (0 < t.return_percent)).length ∧
    (run_backtest sqrtQ srs).win_rate =
      ((((joinTrades srs).filter fun t => decide (0 < t.return_percent)).length : ℚ) /
        ((joinTrades srs).length : ℚ)) * 100 ∧
    0 ≤ (run_backtest sqrtQ srs).win_rate ∧
    (run_backtest sqrtQ srs).win_rate ≤ 100 := by
  have hne : ¬(joinTrades srs).isEmpty = true := by simpa using h
  have hrun : run_backtest sqrtQ srs =
      calculate_metrics sqrtQ { trades := joinTrades srs } := by
    unfold run_backtest
    rw [if_neg hne]
  rw [hrun]
  simp only [calculate_metrics]
  rw [if_neg hne]
  have hfil : List.filter BacktestTrade.is_profitable (joinTrades srs) =
      (joinTrades srs).filter fun t => decide (0 < t.return_percent) := rfl
  refine ⟨rfl, hfil ▸ rfl, hfil ▸ rfl, hfil ▸ rfl, ?_, ?_⟩
  · have h1 : (0 : ℚ) ≤ (((joinTrades srs).filter
        BacktestTrade.is_profitable).length : ℚ) / ((joinTrades srs).length : ℚ) :=
      div_nonneg (by positivity) (by positivity)
    nlinarith
  · have hlenpos : 0 < ((joinTrades srs).length : ℚ) := by
      have := List.length_pos.mpr h
      exact_mod_cast this
    have hle : (((joinTrades srs).filter BacktestTrade.is_profitable).length : ℚ) ≤
        ((joinTrades srs).length : ℚ) := by
      exact_mod_cast List.length_filter_le _ _
    have h1 : (((joinTrades srs).filter
        BacktestTrade.is_profitable).length : ℚ) / ((joinTrades srs).length : ℚ) ≤ 1 :=
      (div_le_one hlenpos).mpr hle
    nlinarith

/-- Witness for C7 (amended) on a concrete two-trade run. -/
theorem win_rate_formula_witness :
    (run_backtest id [[winTrade, lossTrade]]).total_trades =
      (joinTrades [[winTrade, lossTrade]]).length ∧
    (run_backtest id [[winTrade, lossTrade]]).winning_trades =
      ((joinTrades [[winTrade, lossTrade]]).filter fun t =>
        decide (0 < t.return_percent)).length ∧
    (run_backtest id [[winTrade, lossTrade]]).losing_trades =
      (joinTrades [[winTrade, lossTrade]]).length -
        ((joinTrades [[winTrade, lossTrade]]).filter fun t =>
          decide (0 < t.return_percent)).length ∧
    (run_backtest id [[winTrade, lossTrade]]).win_rate =
      ((((joinTrades [[winTrade, lossTrade]]).filter fun t =>
          decide (0 < t.return_percent)).length : ℚ) /
        ((joinTrades [[winTrade, lossTrade]]).length : ℚ)) * 100 ∧
    0 ≤ (run_backtest id [[winTrade, lossTrade]]).win_rate ∧
    (run_backtest id [[winTrade, lossTrade]]).win_rate ≤ 100 :=
  win_rate_formula id [[winTrade, lossTrade]] (by simp [joinTrades])

/-- C8: a run in which no symbol produced a trade — including one where
every symbol failed or had insufficient data, each contributing the
empty list — returns the freshly constructed `BacktestResult` with all
dataclass defaults: no trades, `win_rate = 0`, `sharpe_ratio = 0` and
`profit_factor` at its neutral default `0.0` (the metrics pass that
could set it to infinity is skipped entirely).  The embedded function
is total, mirroring that the source path raises no exception. -/
theorem zero_trade_run_defaults (sqrtQ : ℚ → ℚ)
    (srs : List (List BacktestTrade)) (h : joinTrades srs = []) :
    run_backtest sqrtQ srs = ({} : BacktestResult) ∧
    (run_backtest sqrtQ srs).trades = [] ∧
    (run_backtest sqrtQ srs).win_rate = 0 ∧
    (run_backtest sqrtQ srs).sharpe_ratio = 0 ∧
    (run_backtest sqrtQ srs).profit_factor = some 0 ∧
    (run_backtest sqrtQ srs).total_trades = 0 ∧
    (run_backtest sqrtQ srs).max_drawdown_percent = 0 ∧
    (run_backtest sqrtQ srs).total_return_percent = 0 := by
  have hd : run_backtest sqrtQ srs = ({} : BacktestResult) := by
    unfold run_backtest
    rw [if_pos (by simpa using h)]
  rw [hd]
  exact ⟨rfl, rfl, rfl, rfl, rfl, rfl, rfl, rfl⟩

/-- Witness for C8: a two-symbol run in which both symbols contribute
no trades. -/
theorem zero_trade_run_defaults_witness :
    run_backtest id [[], []] = ({} : BacktestResult) ∧
    (run_backtest id [[], []]).trades = [] ∧
    (run_backtest id [[], []]).win_rate = 0 ∧
    (run_backtest id [[], []]).sharpe_ratio = 0 ∧
    (run_backtest id [[], []]).profit_factor = some 0 ∧
    (run_backtest id [[], []]).total_trades = 0 ∧
    (run_backtest id [[], []]).max_drawdown_percent = 0 ∧
    (run_backtest id [[], []]).total_return_percent = 0 :=
  zero_trade_run_defaults id [[], []] (by simp [joinTrades])
